import Mathlib

/-!
Verification model of `scripts/shot.js` (both concatenated variants in the file).

The repository screenshots map regions of web pages.  We shallowly embed the
logic that the claims are about:

* variant 1: `largestVisibleLeaflet` (stabilization detector with a 150 ms tick,
  12 s hard ceiling and a `first()` fallback), the in-page visibility probe
  `isVisible` and the largest-area candidate fold, and the sequential `run`
  loop over targets;
* variant 2: `isValidPng` plus the `MIN_BYTES` check at the call site,
  `getMapClip` (canvas clip rect), `gotoRetry` (bounded navigation retry) and
  the validated main capture loop.

Modelling conventions: page-relative pixel geometry (JS doubles) is modelled
with `ℚ`; byte buffers are `List Nat`; a thrown JS exception is an
`Except.error`; the in-page probe of one polling tick is a function
`Nat → Option (Nat × String)` giving, for each tick, either no candidate
(`best.i = -1`) or the chosen candidate index together with the quantized
geometry key computed for it.  Time inside the detector loop is idealized:
the `page.waitForTimeout(150)` dominates each iteration, so tick `n` happens
at `150 * n` milliseconds after `start`, and `Date.now()` readings within one
iteration coincide.  The loop guard `Date.now() - start < 12000` therefore
runs ticks `n = 0, 1, ..., 79`; we give the recursion fuel `80` so that the
fuel never runs out before the time guard closes the loop.
-/

namespace Shot

/-- The eight PNG signature bytes built by `isValidPng` in variant 2. -/
def pngSignature : List Nat := [0x89, 0x50, 0x4E, 0x47, 0x0D, 0x0A, 0x1A, 0x0A]

/-- Constant `MIN_BYTES` from variant 2: minimum byte size enforced at the call site. -/
def MIN_BYTES : Nat := 20000

/-- Function `isValidPng` from variant 2: a buffer of fewer than 100 bytes is invalid,
otherwise its first 8 bytes must equal the PNG signature. -/
def isValidPng (buf : List Nat) : Bool :=
  if buf.length < 100 then false
  else buf.take 8 == pngSignature

/-- The acceptance test of the capture loop in variant 2: the buffer is written
only when `isValidPng(buf)` holds and `buf.length < MIN_BYTES` is false. -/
def captureAccepted (buf : List Nat) : Bool :=
  isValidPng buf && decide (MIN_BYTES ≤ buf.length)

/-- A concrete well-formed capture buffer: PNG signature followed by filler
bytes, 20000 bytes in total. -/
def goodBuf : List Nat := pngSignature ++ List.replicate 19992 0x42

/-- The computed-style fields read by `isVisible` in variant 1
(`display`, `visibility`, and `parseFloat(cs.opacity)`). -/
structure Style where
  display : String
  visibility : String
  opacity : ℚ

/-- A `getBoundingClientRect` result (page-relative pixel coordinates). -/
structure Rect where
  x : ℚ
  y : ℚ
  width : ℚ
  height : ℚ

/-- Field `r.bottom` of a client rect. -/
def Rect.bottom (r : Rect) : ℚ := r.y + r.height

/-- Field `r.right` of a client rect. -/
def Rect.right (r : Rect) : ℚ := r.x + r.width

/-- Function `isVisible` from variant 1 lines 41-46: an element whose computed style is
`display:none`, `visibility:hidden` or zero opacity is not visible; otherwise
its rect must satisfy `width > 200 && height > 150 && bottom > 0 && right > 0`. -/
def isVisible (cs : Style) (r : Rect) : Bool :=
  if cs.display = "none" ∨ cs.visibility = "hidden" ∨ cs.opacity = 0 then false
  else decide (200 < r.width ∧ 150 < r.height ∧ 0 < r.bottom ∧ 0 < r.right)

/-- One step of the `els.forEach` fold in the in-page probe (variant 1 lines
48-54): an element updates `best` only when it passes `isVisible` and its area
strictly exceeds the best area so far. -/
def bestStep (i : Nat) (e : Style × Rect) (best : Int × ℚ) : Int × ℚ :=
  if isVisible e.1 e.2 && decide (e.2.width * e.2.height > best.2) then
    ((i : Int), e.2.width * e.2.height)
  else best

/-- The `forEach` fold over all `.leaflet-container` elements, carrying the
running index, starting from `best = { i: -1, area: 0 }`. -/
def bestAux : List (Style × Rect) → Nat → Int × ℚ → Int × ℚ
  | [], _, best => best
  | e :: rest, i, best => bestAux rest (i + 1) (bestStep i e best)

/-- Value `best.i` returned by the in-page evaluate of variant 1: the index of the
largest visible container, or `-1` when no element qualifies. -/
def bestIndex (els : List (Style × Rect)) : Int :=
  (bestAux els 0 (-1, 0)).1

/-- JavaScript `Math.round` on a rational: floor of `q + 1/2`. -/
def roundJs (q : ℚ) : Int := ⌊q + 1 / 2⌋

/-- The quantized geometry key of variant 1 line 64:
round each coordinate to an integer and join with colons. -/
def geomKey (r : Rect) : String :=
  toString (roundJs r.x) ++ ":" ++ toString (roundJs r.y) ++ ":" ++
    toString (roundJs r.width) ++ ":" ++ toString (roundJs r.height)

/-- The integer clip rectangle built by `getMapClip` in variant 2. -/
structure Clip where
  x : Int
  y : Int
  width : Int
  height : Int
deriving DecidableEq

/-- The exception raised inside `page.evaluate` of `getMapClip` when
`document.querySelector` finds no canvas: `container` is `null`, so
`container.getBoundingClientRect()` throws.  (Even if the evaluate returned a
falsy rect instead, the explicit
`throw new Error(...)` on the next line would fire, so a missing canvas always
surfaces as an error, never as an empty result.) -/
def nullDerefMsg : String := "TypeError: container is null"

/-- Function `getMapClip` from variant 2 lines 161-176: reads the bounding rect of the
first canvas and floors each field.  There is no dimension check whatsoever:
whatever rect the canvas reports is returned. -/
def getMapClip (canvasRect : Option Rect) : Except String Clip :=
  match canvasRect with
  | none => Except.error nullDerefMsg
  | some r => Except.ok ⟨⌊r.x⌋, ⌊r.y⌋, ⌊r.width⌋, ⌊r.height⌋⟩

/-- Result of `largestVisibleLeaflet`: a stable locator `.nth(idx)`, the
timeout fallback `.first()` (the first container on the page, independent of
any candidate history), or `null` when no container exists at timeout. -/
inductive DetResult where
  | stable (idx : Nat)
  | timeoutFirst
  | timeoutNone
deriving DecidableEq

/-- The value produced after the polling loop of variant 1 lines 80-83:
the first `.leaflet-container` when one exists, else `null`. -/
def timeoutResult (hasContainer : Bool) : DetResult :=
  if hasContainer then DetResult.timeoutFirst else DetResult.timeoutNone

/-- A probe sequence: for each tick, the result of the in-page evaluate pair —
`none` when `best.i = -1`, otherwise the candidate index with its quantized
geometry key. -/
abbrev Probe := Nat → Option (Nat × String)

/-- The polling loop of `largestVisibleLeaflet` (variant 1 lines 39-78), tick
`n` at time `150 * n`.  State: `stableSince` (ms timestamp of the last key
change) and `lastKey`.  On a candidate tick whose key equals `lastKey`, the
loop returns `stable idx` once `now - stableSince ≥ stableMs`; on a key
change it resets `stableSince` to now and remembers the key; on a
no-candidate tick the state is untouched.  When `150 * n < 12000` fails the
fallback of lines 80-83 runs. -/
def lvlLoop (probe : Probe) (stableMs : Nat) (hc : Bool) :
    Nat → Nat → Nat → String → DetResult
  | 0, _, _, _ => timeoutResult hc
  | fuel + 1, n, stableSince, lastKey =>
    if 150 * n < 12000 then
      match probe n with
      | some c =>
        if c.2 = lastKey then
          if stableMs ≤ 150 * n - stableSince then DetResult.stable c.1
          else lvlLoop probe stableMs hc fuel (n + 1) stableSince lastKey
        else lvlLoop probe stableMs hc fuel (n + 1) (150 * n) c.2
      | none => lvlLoop probe stableMs hc fuel (n + 1) stableSince lastKey
    else timeoutResult hc

/-- Function `largestVisibleLeaflet(page, stableMs)`: start the loop at tick 0 with
`stableSince = start` and `lastKey = ""`.  `hc` records whether
`page.locator(".leaflet-container").first()` has a nonzero count when the
fallback runs. -/
def largestVisibleLeaflet (probe : Probe) (stableMs : Nat) (hc : Bool) : DetResult :=
  lvlLoop probe stableMs hc 80 0 0 ""

/-- The value of the loop variable `lastKey` at the start of tick `i`,
assuming no tick before `i` returned: after any candidate tick it equals that
key of that tick, and it starts out empty. -/
def lastKeyAt (probe : Probe) : Nat → String
  | 0 => ""
  | i + 1 =>
    match probe i with
    | some c => c.2
    | none => lastKeyAt probe i

/-- The value of the loop variable `stableSince` at the start of tick `i`,
assuming no tick before `i` returned. -/
def ssAt (probe : Probe) : Nat → Nat
  | 0 => 0
  | i + 1 =>
    match probe i with
    | some c => if c.2 = lastKeyAt probe i then ssAt probe i else 150 * i
    | none => ssAt probe i

/-- Tick `i` is either candidate-free or changes the key: the shape of every
tick that precedes a stabilization run in claim C1. -/
def keyChangedB (probe : Probe) (i : Nat) : Bool :=
  match probe i with
  | some c => c.2 != lastKeyAt probe i
  | none => true

/-- The retry loop of `gotoRetry` (variant 2 lines 179-192), instrumented with
the number of `page.goto` calls made.  `outcomes i` is the result of the
`i`-th navigation attempt; `lastErr` starts out undefined (`none`).  On
exhaustion the loop throws `lastErr`; on a successful attempt it returns at
once. -/
def gotoRetryAux (outcomes : Nat → Except String Unit) :
    Nat → Nat → Option String → Except (Option String) Unit × Nat
  | 0, i, lastErr => (Except.error lastErr, i)
  | fuel + 1, i, _ =>
    match outcomes i with
    | Except.ok _ => (Except.ok (), i + 1)
    | Except.error e => gotoRetryAux outcomes fuel (i + 1) (some e)

/-- Function `gotoRetry(page, url, attempts)`: run the attempt loop from attempt 0 with
no previous error.  First component: the function result (`Except.error`
models the final `throw lastErr`); second component: navigation attempts
performed. -/
def gotoRetryRun (outcomes : Nat → Except String Unit) (attempts : Nat) :
    Except (Option String) Unit × Nat :=
  gotoRetryAux outcomes attempts 0 none

/-- The sequential target loop shared by variant 1 (`run`, lines 113-120) and
variant 2 (lines 215-237): each target is captured in order; a successful
capture appends the output file of that target; a thrown error stops the loop at
once (the surrounding `.catch` then calls `process.exit(1)`), so no output of
the failing target nor of any later target is written.  Returns the list of
targets whose file was written and the error that aborted the run, if any. -/
def runShots (outcome : Nat → Except String Unit) : List Nat → List Nat × Option String
  | [] => ([], none)
  | t :: ts =>
    match outcome t with
    | Except.ok _ => (t :: (runShots outcome ts).1, (runShots outcome ts).2)
    | Except.error e => ([], some e)

/-- The validated capture loop of variant 2 lines 215-237: for each target the
screenshot buffer is computed, then `if (!isValidPng(buf) || buf.length <
MIN_BYTES) throw`, and only past that check is `writeFileSync` reached.
Returns the association list of written files (target, bytes) and the abort
error, if any. -/
def mainLoop (shoot : Nat → List Nat) : List Nat → List (Nat × List Nat) × Option String
  | [] => ([], none)
  | t :: ts =>
    if captureAccepted (shoot t) then
      ((t, shoot t) :: (mainLoop shoot ts).1, (mainLoop shoot ts).2)
    else ([], some "invalid png")

/-- Probe for the C1 witness: two key-changing ticks, then the candidate with
index 7 and key "s" forever. -/
def probeConverge : Probe := fun i =>
  if i = 0 then some (5, "a") else if i = 1 then some (6, "b") else some (7, "s")

/-- Probe for the C2 counterexample: the best candidate always has index 1,
but its quantized key oscillates every tick, so the geometry never settles. -/
def probeOscillate : Probe := fun n =>
  some (1, if n % 2 = 0 then "p" else "q")

/-- Probe for the C9 counterexample: the candidate (index 0, key "k") is seen
at ticks 0 and 8 only, with seven candidate-free ticks in between. -/
def probeGap : Probe := fun n =>
  if n = 0 ∨ n = 8 then some (0, "k") else none

/-- Outcomes for the C3 counterexample: the capture of the first target
throws, the others would succeed. -/
def failFirst : Nat → Except String Unit := fun t =>
  if t = 0 then Except.error "nav timeout" else Except.ok ()

/-- Outcomes for the C3 witness: the capture of the middle target throws. -/
def failSecond : Nat → Except String Unit := fun t =>
  if t = 1 then Except.error "boom" else Except.ok ()

/-- A computed style that passes every style test of `isVisible`. -/
def visStyle : Style := ⟨"block", "visible", 1⟩

/-- A client rect that passes every geometry test of `isVisible`. -/
def visRect : Rect := ⟨0, 0, 800, 600⟩

/-! ## Helper lemmas -/

/-- The combined validation of variant 2 accepts a buffer exactly when its
first 8 bytes are the PNG signature and it has at least `MIN_BYTES` bytes
(the inner 100-byte floor of `isValidPng` is subsumed by `MIN_BYTES`). -/
theorem captureAccepted_iff (buf : List Nat) :
    captureAccepted buf = true ↔
      (buf.take 8 = pngSignature ∧ MIN_BYTES ≤ buf.length) := by
  unfold captureAccepted isValidPng MIN_BYTES
  by_cases h100 : buf.length < 100
  · rw [if_pos h100]
    simp only [Bool.false_and, Bool.false_eq_true, false_iff, not_and]
    intro _
    omega
  · rw [if_neg h100]
    simp only [Bool.and_eq_true, beq_iff_eq, decide_eq_true_eq]

/-- Unfolding of `isVisible` into its seven individual tests. -/
theorem isVisible_iff (cs : Style) (r : Rect) :
    isVisible cs r = true ↔
      (cs.display ≠ "none" ∧ cs.visibility ≠ "hidden" ∧ cs.opacity ≠ 0 ∧
        200 < r.width ∧ 150 < r.height ∧ 0 < r.bottom ∧ 0 < r.right) := by
  unfold isVisible
  by_cases h : cs.display = "none" ∨ cs.visibility = "hidden" ∨ cs.opacity = 0
  · rw [if_pos h]
    simp only [Bool.false_eq_true, false_iff]
    intro hc
    tauto
  · push_neg at h
    rw [if_neg (show ¬(cs.display = "none" ∨ cs.visibility = "hidden" ∨ cs.opacity = 0) by tauto)]
    simp only [decide_eq_true_eq]
    constructor
    · intro hv
      exact ⟨h.1, h.2.1, h.2.2, hv.1, hv.2.1, hv.2.2.1, hv.2.2.2⟩
    · intro hv
      exact ⟨hv.2.2.2.1, hv.2.2.2.2.1, hv.2.2.2.2.2.1, hv.2.2.2.2.2.2⟩

/-- The concrete example element `(visStyle, visRect)` passes `isVisible`. -/
theorem vis_example : isVisible visStyle visRect = true :=
  (isVisible_iff visStyle visRect).mpr
    ⟨by simp [visStyle], by simp [visStyle], by norm_num [visStyle],
     by norm_num [visRect], by norm_num [visRect],
     by norm_num [visRect, Rect.bottom], by norm_num [visRect, Rect.right]⟩

/-- The concrete buffer `goodBuf` passes the combined validation. -/
theorem captureAccepted_goodBuf : captureAccepted goodBuf = true := by
  rw [captureAccepted_iff]
  constructor
  · show (pngSignature ++ List.replicate 19992 0x42).take 8 = pngSignature
    rw [show 8 = pngSignature.length from rfl, List.take_left]
  · show MIN_BYTES ≤ (pngSignature ++ List.replicate 19992 0x42).length
    rw [List.length_append, List.length_replicate]
    rfl

/-- Characterization of the candidate fold: it either returns the
accumulator unchanged, or it ends on the index (offset by the running index
`i`) of an element of the list that passed `isVisible`. -/
theorem bestAux_sel :
    ∀ (els : List (Style × Rect)) (i : Nat) (acc : Int × ℚ),
      bestAux els i acc = acc ∨
        ∃ j, ∃ hj : j < els.length,
          (bestAux els i acc).1 = ((i + j : Nat) : Int) ∧
          isVisible (els.get ⟨j, hj⟩).1 (els.get ⟨j, hj⟩).2 = true := by
  intro els
  induction els with
  | nil =>
    intro i acc
    exact Or.inl rfl
  | cons e rest ih =>
    intro i acc
    rw [bestAux]
    rcases ih (i + 1) (bestStep i e acc) with hkeep | ⟨j, hj, h1, h2⟩
    · by_cases hcond :
          (isVisible e.1 e.2 && decide (e.2.width * e.2.height > acc.2)) = true
      · right
        refine ⟨0, by simp, ?_, ?_⟩
        · rw [hkeep, bestStep, if_pos hcond]
          simp
        · exact ((Bool.and_eq_true _ _).mp hcond).1
      · left
        rw [hkeep, bestStep, if_neg hcond]
    · right
      refine ⟨j + 1, by simpa using Nat.succ_lt_succ hj, ?_, ?_⟩
      · rw [h1]
        congr 1
        omega
      · exact h2

/-- One-step unfolding of the loop on a candidate tick. -/
theorem lvlLoop_step_some (probe : Probe) (stableMs : Nat) (hc : Bool)
    (fuel n ss : Nat) (lk : String) (c : Nat × String)
    (hg : 150 * n < 12000) (hp : probe n = some c) :
    lvlLoop probe stableMs hc (fuel + 1) n ss lk =
      if c.2 = lk then
        (if stableMs ≤ 150 * n - ss then DetResult.stable c.1
         else lvlLoop probe stableMs hc fuel (n + 1) ss lk)
      else lvlLoop probe stableMs hc fuel (n + 1) (150 * n) c.2 := by
  rw [lvlLoop, if_pos hg, hp]

/-- One-step unfolding of the loop on a candidate-free tick. -/
theorem lvlLoop_step_none (probe : Probe) (stableMs : Nat) (hc : Bool)
    (fuel n ss : Nat) (lk : String)
    (hg : 150 * n < 12000) (hp : probe n = none) :
    lvlLoop probe stableMs hc (fuel + 1) n ss lk =
      lvlLoop probe stableMs hc fuel (n + 1) ss lk := by
  rw [lvlLoop, if_pos hg, hp]

/-- Once the guard `150 * n < 12000` fails the loop falls back. -/
theorem lvlLoop_stop (probe : Probe) (stableMs : Nat) (hc : Bool)
    (fuel n ss : Nat) (lk : String) (hg : ¬150 * n < 12000) :
    lvlLoop probe stableMs hc (fuel + 1) n ss lk = timeoutResult hc := by
  rw [lvlLoop, if_neg hg]

/-- Counter `stableSince` never runs ahead of the clock: at the start of tick `i` it
is at most `150 * i`. -/
theorem ssAt_le (probe : Probe) : ∀ i, ssAt probe i ≤ 150 * i := by
  intro i
  induction i with
  | zero => exact Nat.le_refl 0
  | succ j ih =>
    cases hp : probe j with
    | none =>
      simp only [ssAt, hp]
      omega
    | some c =>
      simp only [ssAt, hp]
      by_cases hk : c.2 = lastKeyAt probe j
      · rw [if_pos hk]; omega
      · rw [if_neg hk]; omega

/-- Core run lemma: while the probe keeps returning the candidate `(idx, k)`
on every tick of the window `[a, a + m]` and `lastKey` is already `k`, the
loop returns `stable idx` no later than tick `a + m`, provided the dwell
budget `ss + stableMs` fits inside the window and the window closes before
the 12-second ceiling. -/
theorem lvlLoop_run (probe : Probe) (stableMs : Nat) (hc : Bool)
    (idx a m : Nat) (k : String)
    (hrun : ∀ j, j ≤ m → probe (a + j) = some (idx, k))
    (hceil : 150 * (a + m) < 12000) :
    ∀ fuel n ss, fuel + n = 80 → a ≤ n → n ≤ a + m → ss ≤ 150 * n →
      ss + stableMs ≤ 150 * (a + m) →
      lvlLoop probe stableMs hc fuel n ss k = DetResult.stable idx := by
  intro fuel
  induction fuel with
  | zero =>
    intro n ss hfn _ hnm _ _
    exfalso
    omega
  | succ f ih =>
    intro n ss hfn han hnm hssn hbound
    have hprobe : probe n = some (idx, k) := by
      have h2 := hrun (n - a) (by omega)
      rw [show a + (n - a) = n by omega] at h2
      exact h2
    have hg : 150 * n < 12000 := by omega
    rw [lvlLoop, if_pos hg, hprobe]
    show (if k = k then _ else _) = _
    rw [if_pos rfl]
    by_cases hd : stableMs ≤ 150 * n - ss
    · rw [if_pos hd]
    · rw [if_neg hd]
      exact ih (n + 1) ss (by omega) (by omega) (by omega) (by omega) (by omega)

/-- Entry into a stabilization run: at tick `a` with any inherited state
`(ss, lk)`, a probe that keeps returning `(idx, k)` through `[a, a + m]`
with `0 < stableMs ≤ 150 * m` drives the loop to `stable idx`. -/
theorem lvlLoop_entry (probe : Probe) (stableMs : Nat) (hc : Bool)
    (idx a m : Nat) (k : String)
    (hpos : 0 < stableMs)
    (hrun : ∀ j, j ≤ m → probe (a + j) = some (idx, k))
    (hlen : stableMs ≤ 150 * m)
    (hceil : 150 * (a + m) < 12000)
    (ss : Nat) (lk : String) (hss : ss ≤ 150 * a) :
    lvlLoop probe stableMs hc (80 - a) a ss lk = DetResult.stable idx := by
  have ha80 : a < 80 := by omega
  by_cases hk : k = lk
  · subst hk
    exact lvlLoop_run probe stableMs hc idx a m k hrun hceil (80 - a) a ss
      (by omega) (Nat.le_refl a) (by omega) hss (by omega)
  · have hp0 : probe a = some (idx, k) := by
      have := hrun 0 (Nat.zero_le m)
      rwa [Nat.add_zero] at this
    have hg : 150 * a < 12000 := by omega
    rw [show 80 - a = (80 - (a + 1)) + 1 by omega, lvlLoop, if_pos hg, hp0]
    show (if k = lk then _ else _) = _
    rw [if_neg hk]
    exact lvlLoop_run probe stableMs hc idx a m k hrun hceil (80 - (a + 1)) (a + 1)
      (150 * a) (by omega) (by omega) (by omega) (by omega) (by omega)

/-- While every tick before `a` either finds no candidate or changes the key,
no tick before `a` can return, and the loop state at tick `a` is exactly
`(ssAt a, lastKeyAt a)`. -/
theorem lvlLoop_preRun (probe : Probe) (stableMs : Nat) (hc : Bool) (a : Nat)
    (ha : 150 * a < 12000)
    (hpre : ∀ i, i < a → keyChangedB probe i = true) :
    ∀ i, i ≤ a →
      lvlLoop probe stableMs hc 80 0 0 "" =
        lvlLoop probe stableMs hc (80 - i) i (ssAt probe i) (lastKeyAt probe i) := by
  intro i
  induction i with
  | zero => intro _; rfl
  | succ j ih =>
    intro hja
    rw [ih (by omega)]
    have hj80 : j < 79 := by omega
    have hg : 150 * j < 12000 := by omega
    rw [show 80 - j = (80 - (j + 1)) + 1 by omega]
    cases hp : probe j with
    | none =>
      simp only [lvlLoop, ssAt, lastKeyAt, hp, if_pos hg]
    | some c =>
      have hne : c.2 ≠ lastKeyAt probe j := by
        have hkc := hpre j (by omega)
        simp only [keyChangedB, hp] at hkc
        exact bne_iff_ne.mp hkc
      simp only [lvlLoop, ssAt, lastKeyAt, hp, if_pos hg, if_neg hne]

/-- Any run of the detector loop ends either in `stable` or in the
container-count fallback — there is no other outcome. -/
theorem lvlLoop_shape (probe : Probe) (stableMs : Nat) (hc : Bool) :
    ∀ fuel n ss lk,
      lvlLoop probe stableMs hc fuel n ss lk = timeoutResult hc ∨
        ∃ idx, lvlLoop probe stableMs hc fuel n ss lk = DetResult.stable idx := by
  intro fuel
  induction fuel with
  | zero =>
    intro n ss lk
    exact Or.inl rfl
  | succ f ih =>
    intro n ss lk
    by_cases hg : 150 * n < 12000
    · cases hp : probe n with
      | none =>
        rw [lvlLoop_step_none probe stableMs hc f n ss lk hg hp]
        exact ih (n + 1) ss lk
      | some c =>
        rw [lvlLoop_step_some probe stableMs hc f n ss lk c hg hp]
        by_cases hk : c.2 = lk
        · rw [if_pos hk]
          by_cases hd : stableMs ≤ 150 * n - ss
          · rw [if_pos hd]
            exact Or.inr ⟨c.1, rfl⟩
          · rw [if_neg hd]
            exact ih (n + 1) ss lk
        · rw [if_neg hk]
          exact ih (n + 1) (150 * n) c.2
    · rw [lvlLoop_stop probe stableMs hc f n ss lk hg]
      exact Or.inl rfl

/-- The result of the detector depends only on the probe values of the at most 80
ticks that fit under the 12-second ceiling. -/
theorem lvlLoop_agree (probe probeB : Probe) (stableMs : Nat) (hc : Bool)
    (hagree : ∀ i, i < 80 → probe i = probeB i) :
    ∀ fuel n ss lk, n + fuel ≤ 80 →
      lvlLoop probe stableMs hc fuel n ss lk =
        lvlLoop probeB stableMs hc fuel n ss lk := by
  intro fuel
  induction fuel with
  | zero =>
    intro n ss lk _
    rfl
  | succ f ih =>
    intro n ss lk hn
    by_cases hg : 150 * n < 12000
    · have hpB : probeB n = probe n := (hagree n (by omega)).symm
      cases hp : probe n with
      | none =>
        rw [lvlLoop_step_none probe stableMs hc f n ss lk hg hp,
          lvlLoop_step_none probeB stableMs hc f n ss lk hg (hpB.trans hp)]
        exact ih (n + 1) ss lk (by omega)
      | some c =>
        rw [lvlLoop_step_some probe stableMs hc f n ss lk c hg hp,
          lvlLoop_step_some probeB stableMs hc f n ss lk c hg (hpB.trans hp)]
        by_cases hk : c.2 = lk
        · rw [if_pos hk, if_pos hk]
          by_cases hd : stableMs ≤ 150 * n - ss
          · rw [if_pos hd, if_pos hd]
          · rw [if_neg hd, if_neg hd]
            exact ih (n + 1) ss lk (by omega)
        · rw [if_neg hk, if_neg hk]
          exact ih (n + 1) (150 * n) c.2 (by omega)
    · rw [lvlLoop_stop probe stableMs hc f n ss lk hg,
        lvlLoop_stop probeB stableMs hc f n ss lk hg]

/-! ## Claim theorems -/

/-- Claim C1 (confirmed): if, before the 12-second ceiling elapses, the
quantized geometry key of the selected candidate stays constant for at least the
stabilization threshold — the probe returns `(idx, k)` on every tick of a
window of length `≥ stableMs` milliseconds — then the detector returns that
candidate as `stable`, no matter how many earlier ticks found no candidate
or kept changing the key. -/
theorem claim_C1 (probe : Probe) (stableMs : Nat) (hc : Bool)
    (idx a m : Nat) (k : String)
    (hpos : 0 < stableMs)
    (hpre : ∀ i, i < a → keyChangedB probe i = true)
    (hrun : ∀ j, j ≤ m → probe (a + j) = some (idx, k))
    (hlen : stableMs ≤ 150 * m)
    (hceil : 150 * (a + m) < 12000) :
    largestVisibleLeaflet probe stableMs hc = DetResult.stable idx := by
  have ha : 150 * a < 12000 := by omega
  rw [largestVisibleLeaflet,
    lvlLoop_preRun probe stableMs hc a ha hpre a (Nat.le_refl a)]
  exact lvlLoop_entry probe stableMs hc idx a m k hpos hrun hlen hceil
    (ssAt probe a) (lastKeyAt probe a) (ssAt_le probe a)

/-- Witness for C1: after two key-changing ticks, the candidate `(7, "s")`
holds steady from tick 2 through tick 10 (1200 ms at 150 ms per tick), so the
detector stabilizes on index 7. -/
theorem claim_C1_witness :
    largestVisibleLeaflet probeConverge 1200 true = DetResult.stable 7 :=
  claim_C1 probeConverge 1200 true 7 2 8 "s" (by decide) (by decide)
    (by decide) (by decide) (by decide)

/-- Claim C2, corrected: the detector never loops past the hard ceiling (its
result depends only on the at most 80 ticks below 12 s), and whenever it does
not stabilize it returns the timeout fallback — which is the FIRST
`.leaflet-container` present at that moment when any exists (`null`
otherwise), not the best candidate of the most recent successful tick. -/
theorem claim_C2_amended (probe probeB : Probe) (stableMs : Nat) (hc : Bool)
    (hagree : ∀ i, i < 80 → probe i = probeB i) :
    largestVisibleLeaflet probe stableMs hc =
      largestVisibleLeaflet probeB stableMs hc ∧
    ((∀ idx, largestVisibleLeaflet probe stableMs hc ≠ DetResult.stable idx) →
      largestVisibleLeaflet probe stableMs hc = timeoutResult hc) := by
  constructor
  · exact lvlLoop_agree probe probeB stableMs hc hagree 80 0 0 "" (by omega)
  · intro hns
    rcases lvlLoop_shape probe stableMs hc 80 0 0 "" with h | ⟨idx, h⟩
    · exact h
    · exact absurd h (hns idx)

/-- Counterexample to C2 as stated: the best candidate has index 1 on every
tick but its key oscillates, so the loop times out; the code then returns the
first container (`timeoutFirst`), not candidate 1 from the last successful
tick. -/
theorem claim_C2_counterexample :
    largestVisibleLeaflet probeOscillate 1200 true = DetResult.timeoutFirst ∧
      DetResult.timeoutFirst ≠ DetResult.stable 1 := by
  constructor
  · decide
  · decide

/-- Witness for C2: with no candidate on any tick and no container at
timeout, the detector reports the `null` fallback, reached through the
amended theorem. -/
theorem claim_C2_witness :
    largestVisibleLeaflet (fun _ => none) 1200 false = timeoutResult false := by
  apply (claim_C2_amended (fun _ => none) (fun _ => none) 1200 false
    (fun _ _ => rfl)).2
  intro idx hcontra
  have hnone : largestVisibleLeaflet (fun _ => none) 1200 false =
      DetResult.timeoutNone := by decide
  rw [hnone] at hcontra
  exact DetResult.noConfusion hcontra

/-- Claim C9, corrected: on a tick whose key differs from the previous key,
the dwell clock is reset to the current time (`150 * n`) and the new key is
remembered; on a tick with no candidate the loop cannot return stable and
continues — but the stored state is simply left unchanged, so elapsed wall
time during candidate-free ticks still counts toward the stabilization
threshold once the same key is seen again. -/
theorem claim_C9_amended (probe : Probe) (stableMs : Nat) (hc : Bool)
    (fuel n ss : Nat) (lk : String) (hg : 150 * n < 12000) :
    (∀ idx key, probe n = some (idx, key) → key ≠ lk →
      lvlLoop probe stableMs hc (fuel + 1) n ss lk =
        lvlLoop probe stableMs hc fuel (n + 1) (150 * n) key) ∧
    (probe n = none →
      lvlLoop probe stableMs hc (fuel + 1) n ss lk =
        lvlLoop probe stableMs hc fuel (n + 1) ss lk) := by
  constructor
  · intro idx key hp hne
    rw [lvlLoop_step_some probe stableMs hc fuel n ss lk (idx, key) hg hp]
    exact if_neg hne
  · intro hp
    exact lvlLoop_step_none probe stableMs hc fuel n ss lk hg hp

/-- Counterexample to the accumulation half of C9: the candidate `(0, "k")`
is observed only at ticks 0 and 8 (so only twice, 300 ms of samples), yet the
seven candidate-free ticks in between count toward the 1200 ms threshold
because `stableSince` is wall-clock based, and the detector declares the
candidate STABLE at tick 8. -/
theorem claim_C9_counterexample :
    largestVisibleLeaflet probeGap 1200 true = DetResult.stable 0 := by
  decide

/-- Witness for C9: a concrete key-changing tick (tick 2, inherited state
`(7, "")`, new key "k") resets the dwell clock to `150 * 2 = 300` and stores
the new key. -/
theorem claim_C9_witness :
    lvlLoop (fun _ => some (3, "k")) 1200 true 78 2 7 "" =
      lvlLoop (fun _ => some (3, "k")) 1200 true 77 3 300 "k" :=
  (claim_C9_amended (fun _ => some (3, "k")) 1200 true 77 2 7 "" (by decide)).1
    3 "k" rfl (by decide)

/-- The retry loop performs at most `i + fuel` navigation attempts when it
starts at attempt `i`. -/
theorem gotoRetryAux_count (outcomes : Nat → Except String Unit) :
    ∀ fuel i lastErr, (gotoRetryAux outcomes fuel i lastErr).2 ≤ i + fuel := by
  intro fuel
  induction fuel with
  | zero =>
    intro i lastErr
    exact Nat.le_add_right i 0
  | succ f ih =>
    intro i lastErr
    cases ho : outcomes i with
    | ok u =>
      cases u
      simp only [gotoRetryAux, ho]
      omega
    | error e =>
      simp only [gotoRetryAux, ho]
      have := ih (i + 1) (some e)
      omega

/-- If every attempt in the window fails, the loop rethrows the error of the
last attempt of the window. -/
theorem gotoRetryAux_allFail (outcomes : Nat → Except String Unit) :
    ∀ fuel i lastErr, 1 ≤ fuel →
      (∀ j, i ≤ j → j < i + fuel → ∃ e, outcomes j = Except.error e) →
      ∃ e, outcomes (i + fuel - 1) = Except.error e ∧
        (gotoRetryAux outcomes fuel i lastErr).1 = Except.error (some e) := by
  intro fuel
  induction fuel with
  | zero =>
    intro i lastErr h1 _
    exact absurd h1 (by omega)
  | succ f ih =>
    intro i lastErr _ hfail
    obtain ⟨e, he⟩ := hfail i (Nat.le_refl i) (by omega)
    by_cases hf : f = 0
    · subst hf
      refine ⟨e, ?_, ?_⟩
      · rw [show i + 1 - 1 = i by omega]
        exact he
      · simp only [gotoRetryAux, he]
    · obtain ⟨e2, he2, hres⟩ := ih (i + 1) (some e) (by omega)
        (fun j hj1 hj2 => hfail j (by omega) (by omega))
      refine ⟨e2, ?_, ?_⟩
      · rw [show i + (f + 1) - 1 = i + 1 + f - 1 by omega]
        exact he2
      · simp only [gotoRetryAux, he]
        exact hres

/-- If attempt `j` inside the window succeeds and every earlier attempt
fails, the loop returns success having made exactly `j + 1` attempts. -/
theorem gotoRetryAux_success (outcomes : Nat → Except String Unit) :
    ∀ fuel i lastErr j, i ≤ j → j < i + fuel → outcomes j = Except.ok () →
      (∀ l, i ≤ l → l < j → ∃ e, outcomes l = Except.error e) →
      gotoRetryAux outcomes fuel i lastErr = (Except.ok (), j + 1) := by
  intro fuel
  induction fuel with
  | zero =>
    intro i lastErr j h1 h2 _ _
    exact absurd h2 (by omega)
  | succ f ih =>
    intro i lastErr j hij hjf hok hpre
    by_cases hji : j = i
    · subst hji
      simp only [gotoRetryAux, hok]
    · obtain ⟨e, he⟩ := hpre i (Nat.le_refl i) (by omega)
      simp only [gotoRetryAux, he]
      exact ih (i + 1) (some e) j (by omega) (by omega) hok
        (fun l hl1 hl2 => hpre l (by omega) hl2)

/-- Claim C5 (confirmed): for any positive attempts limit, `gotoRetry`
performs at most that many navigation attempts; if every attempt fails it
throws the error of the last attempt, and it returns successfully — having
made exactly `j + 1` attempts — as soon as attempt `j` is the first to
succeed. -/
theorem claim_C5 (attempts : Nat) (outcomes : Nat → Except String Unit)
    (hpos : 1 ≤ attempts) :
    (gotoRetryRun outcomes attempts).2 ≤ attempts ∧
    ((∀ i, i < attempts → ∃ e, outcomes i = Except.error e) →
      ∃ e, outcomes (attempts - 1) = Except.error e ∧
        (gotoRetryRun outcomes attempts).1 = Except.error (some e)) ∧
    (∀ j, j < attempts → outcomes j = Except.ok () →
      (∀ i, i < j → ∃ e, outcomes i = Except.error e) →
      (gotoRetryRun outcomes attempts).1 = Except.ok () ∧
        (gotoRetryRun outcomes attempts).2 = j + 1) := by
  refine ⟨?_, ?_, ?_⟩
  · have h := gotoRetryAux_count outcomes attempts 0 none
    rw [gotoRetryRun]
    omega
  · intro hfail
    have h := gotoRetryAux_allFail outcomes attempts 0 none hpos
      (fun j _ hj2 => hfail j (by omega))
    rw [gotoRetryRun]
    rw [show attempts - 1 = 0 + attempts - 1 by omega]
    exact h
  · intro j hj hok hpre
    have h := gotoRetryAux_success outcomes attempts 0 none j (Nat.zero_le j)
      (by omega) hok (fun l _ hl2 => hpre l hl2)
    rw [gotoRetryRun, h]
    exact ⟨rfl, rfl⟩

/-- Witness for C5: two attempts that both fail with "boom" make `gotoRetry`
rethrow "boom" after exactly two attempts. -/
theorem claim_C5_witness :
    (gotoRetryRun (fun _ => Except.error "boom") 2).1 =
      Except.error (some "boom") := by
  obtain ⟨e, he, hres⟩ :=
    (claim_C5 2 (fun _ => Except.error "boom") (by decide)).2.1
      (fun i _ => ⟨"boom", rfl⟩)
  have : e = "boom" := by
    injection he with h
    exact h.symm
  rw [hres, this]

/-- Claim C3, corrected: the run loop offers no fallback at all — a target
whose capture throws produces ZERO output files (no placeholder), and the
error aborts the loop so none of the remaining sibling targets is processed;
only the targets before the first failure have their single output file. -/
theorem claim_C3_amended (outcome : Nat → Except String Unit)
    (pre post : List Nat) (t : Nat) (e : String)
    (hpre : ∀ x ∈ pre, outcome x = Except.ok ())
    (ht : outcome t = Except.error e) :
    runShots outcome (pre ++ t :: post) = (pre, some e) := by
  induction pre with
  | nil =>
    rw [List.nil_append, runShots, ht]
  | cons p ps ih =>
    have hp : outcome p = Except.ok () := hpre p (List.mem_cons_self p ps)
    have htail := ih (fun x hx => hpre x (List.mem_cons_of_mem p hx))
    rw [List.cons_append, runShots, hp, htail]

/-- Counterexample to C3 as stated: when the capture of the first target fails,
the run writes no file for it (the claim demands exactly one placeholder)
and aborts before the sibling targets, which therefore produce no output
either. -/
theorem claim_C3_counterexample :
    runShots failFirst [0, 1, 2] = ([], some "nav timeout") := by decide

/-- Witness for C3: with the middle of three targets failing, exactly the
targets before it have files and the run aborts with its error. -/
theorem claim_C3_witness :
    runShots failSecond [0, 1, 2] = ([0], some "boom") :=
  claim_C3_amended failSecond [0] [2] 1 "boom"
    (by intro x hx; rw [List.mem_singleton] at hx; subst hx; rfl) rfl

/-- Claim C10 (confirmed): in the validated variant, a file is written for a
target only after its buffer passed validation — every written buffer starts
with the PNG signature and has at least `MIN_BYTES` bytes — and when a
buffer of a target fails validation no file is ever written for it. -/
theorem claim_C10 (shoot : Nat → List Nat) (targets : List Nat) (t : Nat) :
    (∀ buf, (t, buf) ∈ (mainLoop shoot targets).1 →
      buf.take 8 = pngSignature ∧ MIN_BYTES ≤ buf.length) ∧
    (captureAccepted (shoot t) = false →
      ∀ buf, (t, buf) ∉ (mainLoop shoot targets).1) := by
  induction targets with
  | nil =>
    constructor
    · intro buf hmem
      rw [mainLoop] at hmem
      exact absurd hmem (List.not_mem_nil (t, buf))
    · intro _ buf hmem
      rw [mainLoop] at hmem
      exact absurd hmem (List.not_mem_nil (t, buf))
  | cons t0 ts ih =>
    by_cases hacc : captureAccepted (shoot t0) = true
    · constructor
      · intro buf hmem
        rw [mainLoop, if_pos hacc] at hmem
        rcases List.mem_cons.mp hmem with heq | htail
        · have hb : buf = shoot t0 := congrArg Prod.snd heq
          subst hb
          have ht0 : t = t0 := congrArg Prod.fst heq
          exact (captureAccepted_iff (shoot t0)).mp hacc
        · exact ih.1 buf htail
      · intro hfail buf hmem
        rw [mainLoop, if_pos hacc] at hmem
        rcases List.mem_cons.mp hmem with heq | htail
        · have ht0 : t = t0 := congrArg Prod.fst heq
          rw [ht0] at hfail
          rw [hfail] at hacc
          exact Bool.noConfusion hacc
        · exact ih.2 hfail buf htail
    · constructor
      · intro buf hmem
        rw [mainLoop, if_neg hacc] at hmem
        exact absurd hmem (List.not_mem_nil (t, buf))
      · intro _ buf hmem
        rw [mainLoop, if_neg hacc] at hmem
        exact absurd hmem (List.not_mem_nil (t, buf))

/-- Witness for C10: a run over one target with a valid 20000-byte PNG buffer
writes that buffer, and the theorem recovers signature and size. -/
theorem claim_C10_witness :
    goodBuf.take 8 = pngSignature ∧ MIN_BYTES ≤ goodBuf.length :=
  (claim_C10 (fun _ => goodBuf) [0] 0).1 goodBuf
    (by rw [mainLoop, if_pos captureAccepted_goodBuf]; exact List.mem_cons_self _ _)

/-- Claim C4 (confirmed): capture validation rejects a rasterized buffer if
and only if the buffer is shorter than the minimum byte-size threshold
(`MIN_BYTES`) or its first bytes differ from the PNG signature; every buffer
failing either check is rejected, every buffer passing both is accepted. -/
theorem claim_C4 (buf : List Nat) :
    captureAccepted buf = false ↔
      (buf.length < MIN_BYTES ∨ buf.take 8 ≠ pngSignature) := by
  constructor
  · intro hfalse
    by_contra hcon
    push_neg at hcon
    have : captureAccepted buf = true :=
      (captureAccepted_iff buf).mpr ⟨hcon.2, by omega⟩
    rw [this] at hfalse
    exact Bool.noConfusion hfalse
  · intro hor
    cases hacc : captureAccepted buf with
    | false => rfl
    | true =>
      obtain ⟨ht, hl⟩ := (captureAccepted_iff buf).mp hacc
      rcases hor with h1 | h2
      · omega
      · exact absurd ht h2

/-- Claim C6 (confirmed): an element becomes a candidate exactly when its
computed style marks it visible (display not `none`, visibility not `hidden`,
nonzero opacity) and its box has width > 200, height > 150, bottom > 0 and
right > 0; an element failing any test never updates the candidate fold,
regardless of its presence in the DOM list. -/
theorem claim_C6 (cs : Style) (r : Rect) :
    (isVisible cs r = true ↔
      (cs.display ≠ "none" ∧ cs.visibility ≠ "hidden" ∧ cs.opacity ≠ 0 ∧
        200 < r.width ∧ 150 < r.height ∧ 0 < r.bottom ∧ 0 < r.right)) ∧
    (isVisible cs r = false → ∀ i best, bestStep i (cs, r) best = best) := by
  refine ⟨isVisible_iff cs r, ?_⟩
  intro hv i best
  rw [bestStep, if_neg]
  intro hcond
  rw [hv] at hcond
  exact Bool.noConfusion ((Bool.and_eq_true _ _).mp hcond).1

/-- A probe that never finds a candidate leaves the detector state untouched
on every tick, so the loop always ends in the timeout fallback. -/
theorem lvlLoop_none (stableMs : Nat) (hc : Bool) :
    ∀ fuel n ss lk,
      lvlLoop (fun _ => none) stableMs hc fuel n ss lk = timeoutResult hc := by
  intro fuel
  induction fuel with
  | zero =>
    intro n ss lk
    rfl
  | succ f ih =>
    intro n ss lk
    by_cases hg : 150 * n < 12000
    · rw [lvlLoop, if_pos hg]
      exact ih (n + 1) ss lk
    · rw [lvlLoop, if_neg hg]

/-- Claim C7, corrected: the variant-1 probe tolerates a page with no
matching element — the fold returns `best.i = -1` and the detector keeps
looping to its timeout fallback rather than raising — but `getMapClip`
(variant 2) raises an error whenever the page has no canvas, instead of
returning an empty result. -/
theorem claim_C7_amended (stableMs : Nat) (hc : Bool) :
    bestIndex [] = -1 ∧
    getMapClip none = Except.error nullDerefMsg ∧
    largestVisibleLeaflet (fun _ => none) stableMs hc = timeoutResult hc := by
  refine ⟨rfl, rfl, ?_⟩
  exact lvlLoop_none stableMs hc 80 0 0 ""

/-- Counterexample to C7 as stated: on a page whose selectors match nothing
(`document.querySelector("canvas")` is `null`), the geometry probe
`getMapClip` produces an error, not an empty result. -/
theorem claim_C7_counterexample : getMapClip none = Except.error nullDerefMsg := rfl

/-- Claim C8, corrected: the region selected by the stabilized
largest-visible rule — the element at index `bestIndex`, the one handed to
rasterization — always passed `isVisible`, hence has width > 200 and
height > 150 (strictly positive area).  The canvas-clip policy of variant 2
has no such guarantee (see the counterexample): `getMapClip` performs no
dimension check at all. -/
theorem claim_C8_amended (els : List (Style × Rect)) (i : Nat)
    (h : bestIndex els = (i : Int)) :
    ∃ hi : i < els.length,
      isVisible (els.get ⟨i, hi⟩).1 (els.get ⟨i, hi⟩).2 = true ∧
      200 < (els.get ⟨i, hi⟩).2.width ∧ 150 < (els.get ⟨i, hi⟩).2.height := by
  rw [bestIndex] at h
  rcases bestAux_sel els 0 (-1, 0) with hkeep | ⟨j, hj, h1, h2⟩
  · rw [hkeep] at h
    norm_num at h
    exact absurd h.symm (by omega)
  · rw [h1] at h
    have hji : j = i := by omega
    subst hji
    refine ⟨hj, h2, ?_, ?_⟩
    · exact ((isVisible_iff _ _).mp h2).2.2.2.1
    · exact ((isVisible_iff _ _).mp h2).2.2.2.2.1

/-- Counterexample to C8 as stated: a canvas whose client rect is all zeros
is passed through `getMapClip` as a zero-area clip handed to rasterization,
rather than being reported as a failure. -/
theorem claim_C8_counterexample :
    getMapClip (some ⟨0, 0, 0, 0⟩) = Except.ok ⟨0, 0, 0, 0⟩ := by
  simp [getMapClip]

/-- Witness for C8: with a single visible element the fold selects index 0,
and the amended theorem recovers that the selected element passed
`isVisible` with width > 200 and height > 150. -/
theorem claim_C8_witness :
    ∃ hi : 0 < [(visStyle, visRect)].length,
      isVisible ([(visStyle, visRect)].get ⟨0, hi⟩).1
          ([(visStyle, visRect)].get ⟨0, hi⟩).2 = true ∧
      200 < ([(visStyle, visRect)].get ⟨0, hi⟩).2.width ∧
      150 < ([(visStyle, visRect)].get ⟨0, hi⟩).2.height :=
  claim_C8_amended [(visStyle, visRect)] 0
    (by simp [bestIndex, bestAux, bestStep, vis_example]; norm_num [visRect])

/-- Witness for C6: a concrete visible element is accepted by `isVisible`. -/
theorem claim_C6_witness : isVisible visStyle visRect = true :=
  (claim_C6 visStyle visRect).1.mpr ((isVisible_iff visStyle visRect).mp vis_example)

end Shot
